import Mathlib

/-!
Shallow embedding of `src/objpool.h` (namespace `SObjPoolSpace`): the generic
`object_pool<T, construct, locker>` and the size-classed `memoryBuckets`
allocator, together with theorems checking the natural-language specification
against this code.

Modelling conventions:
* Blocks are identified by creation order: the `k`-th `value_info` ever carved
  out of a growth array has id `k`.  A growth array of `n` blocks starting at
  id `s` occupies ids `s, …, s+n-1`, mirroring the contiguous pointer range
  `pvalue->array … pvalue->array + pvalue->size`.
* The backing allocator (`obj_alloc` / `ObjMalloc`) is an external fallible
  boundary: an oracle list prescribes the outcome of each successive call (an
  exhausted oracle means success), and every call is counted.
* `assert` is modelled with release-build (`NDEBUG`) semantics: a no-op.
* All calls are modelled as the source executes them single-threadedly; the
  locks (`std::mutex` / `CNonMutex`) have no effect on sequential behaviour.
-/

namespace SObjPoolSpace

/-- Constant `m_reference = 0xA110CAED` (objpool.h line 227), reinterpreted as
a 32-bit signed `int` (the literal exceeds `INT_MAX`). -/
def m_reference : Int := 0xA110CAED - 2 ^ 32

/-- Constant `m_unreference = 0xDEA110CA` (objpool.h line 228), reinterpreted
as a 32-bit signed `int`. -/
def m_unreference : Int := 0xDEA110CA - 2 ^ 32

/-- State of one `object_pool` instance (objpool.h lines 54-229).  A
registered `resource_info` record is `(start, size)`: it covers block ids
`start, …, start + size - 1`. -/
structure PoolState where
  nextId   : Nat
  freeList : List Nat
  regions  : List (Nat × Nat)
  magic    : List (Nat × Int)
  initSize : Int
  growSize : Int
  deriving Repr, DecidableEq

/-- Read a block's `magic_num` field: the newest write wins.  A block whose
`magic_num` was never assigned holds indeterminate memory in C; no claim
depends on that value and the model reads it as `0`. -/
def getMagic (m : List (Nat × Int)) (b : Nat) : Int :=
  ((m.find? (fun e => e.1 == b)).map Prod.snd).getD 0

/-- Write a block's `magic_num` field. -/
def setMagic (m : List (Nat × Int)) (b : Nat) (v : Int) : List (Nat × Int) :=
  (b, v) :: m

/-- The pointer-validity scan of `release_obj` (lines 141-153): does some
registered region contain block `b`
(`shell >= pvalue->array && shell < pvalue->array + pvalue->size`)? -/
def owned (regions : List (Nat × Nat)) (b : Nat) : Bool :=
  regions.any (fun r => r.1 ≤ b && b < r.1 + r.2)

/-- A pool together with its backing allocator: `oracle` prescribes the
outcome of each future `obj_alloc` call, `calls` counts the `obj_alloc` calls
made so far, and `growths` counts the growth allocations triggered inside
`_fetch` on an exhausted free list. -/
structure PoolW where
  pool    : PoolState
  oracle  : List Bool
  calls   : Nat
  growths : Nat
  deriving Repr, DecidableEq

/-- One call to the backing allocator `obj_alloc` (lines 41-43). -/
def backingAlloc (w : PoolW) : Bool × PoolW :=
  match w.oracle with
  | []      => (true, { w with calls := w.calls + 1 })
  | b :: tl => (b, { w with oracle := tl, calls := w.calls + 1 })

/-- Function `object_pool::allocate` (lines 172-198).  First backing call:
the `value_info` array; on success the loop `list_add_tail(&array[i].link,
&m_freeLists)` appends the `size` new blocks to the free-list tail.  Second
backing call: the `resource_info` record; on its failure the function returns
`false` with the new blocks already on the free list (and the array never
registered); only on success is the region appended to `m_allLists`. -/
def allocate (size : Int) (w : PoolW) : Bool × PoolW :=
  if size ≤ 0 then (false, w)
  else
    let r1 := backingAlloc w
    if r1.1 then
      let w1 := r1.2
      let start := w1.pool.nextId
      let n := size.toNat
      let w2 := { w1 with pool := { w1.pool with
                    nextId := start + n,
                    freeList := w1.pool.freeList ++ List.range' start n } }
      let r2 := backingAlloc w2
      if r2.1 then
        (true, { r2.2 with pool := { r2.2.pool with
                   regions := r2.2.pool.regions ++ [(start, n)] } })
      else (false, r2.2)
    else (false, r1.2)

/-- Function `object_pool::init` (lines 103-116): store both sizes, fail when
both are zero, normalize an exactly-zero size to the other one, then perform
the first growth allocation of `m_initSize` blocks. -/
def init (init_size grow_size : Int) (w : PoolW) : Bool × PoolW :=
  let w0 := { w with pool :=
    { w.pool with initSize := init_size, growSize := grow_size } }
  if init_size = 0 ∧ grow_size = 0 then (false, w0)
  else
    let w1 :=
      if init_size = 0 then
        { w0 with pool := { w0.pool with initSize := grow_size } }
      else if grow_size = 0 then
        { w0 with pool := { w0.pool with growSize := init_size } }
      else w0
    allocate w1.pool.initSize w1

/-- Function `object_pool::_fetch` (lines 201-219).  On an empty free list it
first grows by `m_growSize` (a failure yields null); it then takes
`list_first_entry` (the front block), unlinks it and stamps
`magic_num = m_reference`.  The nil match arms mirror source states that are
unreachable (`list_first_entry` after a successful `allocate` of a positive
size always finds a block). -/
def _fetch (w : PoolW) : Option Nat × PoolW :=
  if w.pool.freeList.isEmpty then
    let r := allocate w.pool.growSize { w with growths := w.growths + 1 }
    if r.1 then
      match r.2.pool.freeList with
      | [] => (none, r.2)
      | b :: rest =>
        (some b, { r.2 with pool := { r.2.pool with
                     freeList := rest,
                     magic := setMagic r.2.pool.magic b m_reference } })
    else (none, r.2)
  else
    match w.pool.freeList with
    | [] => (none, w)
    | b :: rest =>
      (some b, { w with pool := { w.pool with
                   freeList := rest,
                   magic := setMagic w.pool.magic b m_reference } })

/-- Function `object_pool::fetch_obj` (lines 121-126).  The middle component
records whether the placement-`new` constructor ran on the returned block:
the source runs `new (obj) value_type(args...)` unconditionally whenever
`_fetch` succeeds, whatever the pool's `construct` template argument (which
the body never reads). -/
def fetch_obj (construct : Bool) (w : PoolW) : Option Nat × Bool × PoolW :=
  match _fetch w with
  | (none, w1)   => (none, false, w1)
  | (some b, w1) => (some b, true, w1)

/-- Function `object_pool::release_obj` (lines 129-168), in source order:
null check; magic check (line 138, return unless `magic_num == m_reference`);
region-ownership scan (lines 141-153, return when not found); then the `succ`
path: stamp `m_unreference`, run the destructor when `construct` (no effect
on this state), and `list_add_tail` onto the free list. -/
def release_obj (construct : Bool) (v : Option Nat) (w : PoolW) : PoolW :=
  match v with
  | none => w
  | some b =>
    if getMagic w.pool.magic b ≠ m_reference then w
    else if ¬ owned w.pool.regions b then w
    else
      { w with pool := { w.pool with
          magic := setMagic w.pool.magic b m_unreference,
          freeList := w.pool.freeList ++ [b] } }

/-- A freshly constructed pool (constructor, lines 79-82) whose backing
allocator will answer with the outcomes `o`. -/
def freshW (o : List Bool) : PoolW :=
  { pool := { nextId := 0, freeList := [], regions := [], magic := [],
              initSize := 0, growSize := 0 },
    oracle := o, calls := 0, growths := 0 }

/-- Run `n` successive `_fetch` calls, collecting the results. -/
def fetchN : Nat → PoolW → List (Option Nat) × PoolW
  | 0, w => ([], w)
  | n + 1, w =>
    let r := _fetch w
    let rs := fetchN n r.2
    (r.1 :: rs.1, rs.2)

/-- Total number of blocks in the registered regions of the pool. -/
def totalOwned (w : PoolW) : Nat := (w.pool.regions.map Prod.snd).sum

/-- The pool world reached by a successful `init i g` on a fresh pool with an
always-succeeding backing allocator. -/
def afterInit (i g : Int) : PoolW := (init i g (freshW [])).2

/-- A one-block pool world in which block `0` is currently fetched: the
world reached by `init 1 1` on a fresh pool followed by one `_fetch`. -/
def oneBlockW : PoolW := (_fetch (afterInit 1 1)).2

/-- Rounding `size = (size + alignSize - 1) & (~(alignSize - 1))` with
`alignSize = 4` (objpool.h lines 310-311) on a 32-bit `int` holding a
positive `size`: the mask `~3` reads as `0xFFFFFFFC` on the bit pattern. -/
def align4 (size : Nat) : Nat := ((size + 3) % 2 ^ 32) &&& 0xFFFFFFFC

/-- Result of one `memoryBuckets::Alloc` call: a block served from the pool of
class `cls`, stamped with `header`; an oversized block of `req` backing bytes
stamped with `header`; a null return; or a store through a null pointer
(`obj->size = Size` with `obj == nullptr`, resp. `*(int*)p = size` with
`p == nullptr`). -/
inductive AllocResult where
  | ok (cls : Nat) (header : Nat)
  | oversized (header : Nat) (req : Nat)
  | null
  | nullDeref
  deriving Repr, DecidableEq

/-- The `createObj(Size)` macro (lines 304-308): fetch from the class pool,
then store the header and return — unconditionally, so a failed fetch is
written through, not checked. -/
def createObj (fetchOk : Bool) (cls : Nat) : AllocResult :=
  if fetchOk then .ok cls cls else .nullDeref

/-- Class-selection chain of `memoryBuckets::Alloc` (lines 312-350) on the
already-rounded size `s`, copied in source order; note that after
`size <= 16` the next test is `size <= 32` — no 24 rung.  The oversized arm
requests `sizeof(int) + size` bytes and stamps the (by now rounded) `size`
— again storing through the `ObjMalloc` result without checking it. -/
def allocChain (fetchOk mallocOk : Bool) (s : Nat) : AllocResult :=
  if s ≤ 4 then createObj fetchOk 4
  else if s ≤ 8 then createObj fetchOk 8
  else if s ≤ 16 then createObj fetchOk 16
  else if s ≤ 32 then createObj fetchOk 32
  else if s ≤ 48 then createObj fetchOk 48
  else if s ≤ 64 then createObj fetchOk 64
  else if s ≤ 80 then createObj fetchOk 80
  else if s ≤ 96 then createObj fetchOk 96
  else if s ≤ 112 then createObj fetchOk 112
  else if s ≤ 128 then createObj fetchOk 128
  else if s ≤ 144 then createObj fetchOk 144
  else if s ≤ 160 then createObj fetchOk 160
  else if s ≤ 196 then createObj fetchOk 196
  else if s ≤ 212 then createObj fetchOk 212
  else if s ≤ 228 then createObj fetchOk 228
  else if s ≤ 256 then createObj fetchOk 256
  else if s ≤ 512 then createObj fetchOk 512
  else if mallocOk then .oversized s (4 + s) else .nullDeref

/-- Function `memoryBuckets::Alloc` (lines 298-351) at the routing level:
`fetchOk` says whether the selected class pool's `fetch_obj` returns a block,
`mallocOk` whether the oversized-path `ObjMalloc` succeeds.  Reject
non-positive sizes, round up to the 4-byte boundary, then walk the chain. -/
def Alloc (fetchOk mallocOk : Bool) (size : Int) : AllocResult :=
  if size ≤ 0 then .null
  else allocChain fetchOk mallocOk (align4 size.toNat)

/-- Where one `memoryBuckets::Dealloc` call routes its pointer. -/
inductive DeallocRoute where
  | noop
  | invalid
  | pool (cls : Nat)
  | backingFree
  deriving Repr, DecidableEq

/-- Body of `memoryBuckets::Dealloc` (lines 364-408) after the null check:
`size` is the `int` read at `p - sizeof(int)` — for a pointer produced by
`Alloc`, the stamped header.  A negative value returns without action; the
class chain is copied in source order (again no 24 rung); anything above 512
goes to `ObjFree`. -/
def deallocSize (size : Int) : DeallocRoute :=
  if size < 0 then .invalid
  else if size ≤ 4 then .pool 4
  else if size ≤ 8 then .pool 8
  else if size ≤ 16 then .pool 16
  else if size ≤ 32 then .pool 32
  else if size ≤ 48 then .pool 48
  else if size ≤ 64 then .pool 64
  else if size ≤ 80 then .pool 80
  else if size ≤ 96 then .pool 96
  else if size ≤ 112 then .pool 112
  else if size ≤ 128 then .pool 128
  else if size ≤ 144 then .pool 144
  else if size ≤ 160 then .pool 160
  else if size ≤ 196 then .pool 196
  else if size ≤ 212 then .pool 212
  else if size ≤ 228 then .pool 228
  else if size ≤ 256 then .pool 256
  else if size ≤ 512 then .pool 512
  else .backingFree

/-- Function `memoryBuckets::Dealloc` (lines 354-409): a null pointer is a
no-op; otherwise the stored size is read back and routed by the class chain. -/
def Dealloc (p : Option Int) : DeallocRoute :=
  match p with
  | none => .noop
  | some size => deallocSize size

/-- The Size Class Ladder exactly as the specification lists it (it contains
a 24 rung).  This definition follows the spec's words, for comparison with
the chain the code walks. -/
def specLadder : List Nat :=
  [4, 8, 16, 24, 32, 48, 64, 80, 96, 112, 128, 144, 160, 196, 212, 228, 256, 512]

/-- The ladder the `Alloc`/`Dealloc` chains actually walk: 24 is absent. -/
def codeLadder : List Nat :=
  [4, 8, 16, 32, 48, 64, 80, 96, 112, 128, 144, 160, 196, 212, 228, 256, 512]

/-- Smallest ladder class that can hold `n` — the specification's selection
rule ("the smallest class ≥ rounded size"). -/
def smallestClass (ladder : List Nat) (n : Nat) : Option Nat :=
  ladder.find? (fun c => n ≤ c)

/-- The pool world produced by a successful first growth allocation of `i`
blocks with growth size `g` on a fresh pool (all backing calls succeeding). -/
def steadyWorld (i g : Nat) : PoolW :=
  { pool := { nextId := i, freeList := List.range' 0 i, regions := [(0, i)],
              magic := [], initSize := (i : Int), growSize := (g : Int) },
    oracle := [], calls := 2, growths := 0 }

/-! ## Helper lemmas -/

set_option maxRecDepth 8000


theorem unref_ne_ref : m_unreference ≠ m_reference := by decide

theorem getMagic_setMagic (m : List (Nat × Int)) (b : Nat) (v : Int) :
    getMagic (setMagic m b v) b = v := by
  simp [getMagic, setMagic, List.find?]

theorem release_obj_succ (cf : Bool) (w : PoolW) (b : Nat)
    (h1 : getMagic w.pool.magic b = m_reference)
    (h2 : owned w.pool.regions b = true) :
    release_obj cf (some b) w =
      { w with pool := { w.pool with
          magic := setMagic w.pool.magic b m_unreference,
          freeList := w.pool.freeList ++ [b] } } := by
  simp only [release_obj]
  rw [if_neg (not_not_intro h1), if_neg (not_not_intro h2)]

theorem fetch_cons (w : PoolW) (b : Nat) (rest : List Nat)
    (h : w.pool.freeList = b :: rest) :
    _fetch w = (some b, { w with pool := { w.pool with
        freeList := rest,
        magic := setMagic w.pool.magic b m_reference } }) := by
  unfold _fetch
  rw [h, if_neg (by simp)]

theorem dealloc_big (n : Nat) (hn : 512 < n) :
    Dealloc (some (n : Int)) = .backingFree := by
  show deallocSize (n : Int) = .backingFree
  have c0 : ¬ ((n : Int) < 0) := by omega
  have c4 : ¬ ((n : Int) ≤ 4) := by omega
  have c8 : ¬ ((n : Int) ≤ 8) := by omega
  have c16 : ¬ ((n : Int) ≤ 16) := by omega
  have c32 : ¬ ((n : Int) ≤ 32) := by omega
  have c48 : ¬ ((n : Int) ≤ 48) := by omega
  have c64 : ¬ ((n : Int) ≤ 64) := by omega
  have c80 : ¬ ((n : Int) ≤ 80) := by omega
  have c96 : ¬ ((n : Int) ≤ 96) := by omega
  have c112 : ¬ ((n : Int) ≤ 112) := by omega
  have c128 : ¬ ((n : Int) ≤ 128) := by omega
  have c144 : ¬ ((n : Int) ≤ 144) := by omega
  have c160 : ¬ ((n : Int) ≤ 160) := by omega
  have c196 : ¬ ((n : Int) ≤ 196) := by omega
  have c212 : ¬ ((n : Int) ≤ 212) := by omega
  have c228 : ¬ ((n : Int) ≤ 228) := by omega
  have c256 : ¬ ((n : Int) ≤ 256) := by omega
  have c512 : ¬ ((n : Int) ≤ 512) := by omega
  simp only [deallocSize, if_neg c0, if_neg c4, if_neg c8, if_neg c16, if_neg c32, if_neg c48, if_neg c64, if_neg c80, if_neg c96, if_neg c112, if_neg c128, if_neg c144, if_neg c160, if_neg c196, if_neg c212, if_neg c228, if_neg c256, if_neg c512]

theorem land_mask (m : Nat) (hm : m < 2 ^ 32) :
    m &&& 0xFFFFFFFC = m - m % 4 := by
  have h4 : m - m % 4 = 2 ^ 2 * (m / 4) := by omega
  have hmask : (0xFFFFFFFC : Nat) = 2 ^ 2 * (2 ^ 30 - 1) := by norm_num
  have hdiv : m / 4 = m >>> 2 := by rw [Nat.shiftRight_eq_div_pow]
  rw [h4, hmask]
  apply Nat.eq_of_testBit_eq
  intro i
  rw [Nat.testBit_and, Nat.testBit_mul_pow_two, Nat.testBit_mul_pow_two]
  rcases Nat.lt_or_ge i 2 with hi | hi
  · simp [Nat.not_le_of_lt hi]
  · rcases Nat.lt_or_ge i 32 with hi32 | hi32
    · have hlt : i - 2 < 30 := by omega
      have hadd : 2 + (i - 2) = i := by omega
      simp only [ge_iff_le, hi, decide_True, Nat.testBit_two_pow_sub_one, hlt,
        Bool.true_and, Bool.and_true, hdiv, Nat.testBit_shiftRight, hadd]
    · have hm' : m < 2 ^ i := lt_of_lt_of_le hm (Nat.pow_le_pow_right (by norm_num) hi32)
      have hb1 : Nat.testBit m i = false := Nat.testBit_lt_two_pow hm'
      have hq30 : m / 4 < 2 ^ 30 := by omega
      have hq : m / 4 < 2 ^ (i - 2) :=
        lt_of_lt_of_le hq30 (Nat.pow_le_pow_right (by norm_num) (by omega))
      have hb2 : Nat.testBit (m / 4) (i - 2) = false := Nat.testBit_lt_two_pow hq
      simp [hb1, hb2]

theorem align4_eq (n : Nat) (h : n + 3 < 2 ^ 32) :
    align4 n = (n + 3) - (n + 3) % 4 := by
  unfold align4
  rw [Nat.mod_eq_of_lt h]
  exact land_mask _ h

theorem align4_ge (n : Nat) (h : n + 3 < 2 ^ 32) : n ≤ align4 n := by
  rw [align4_eq n h]
  omega


theorem allocChain_spec :
    ∀ s : Nat, s < 513 →
      allocChain true true s =
        (smallestClass codeLadder s).elim .null (fun c => .ok c c) := by
  decide

theorem allocChain_big (s : Nat) (hs : 512 < s) :
    allocChain true true s = .oversized s (4 + s) := by
  unfold allocChain
  have b4 : ¬ (s ≤ 4) := by omega
  have b8 : ¬ (s ≤ 8) := by omega
  have b16 : ¬ (s ≤ 16) := by omega
  have b32 : ¬ (s ≤ 32) := by omega
  have b48 : ¬ (s ≤ 48) := by omega
  have b64 : ¬ (s ≤ 64) := by omega
  have b80 : ¬ (s ≤ 80) := by omega
  have b96 : ¬ (s ≤ 96) := by omega
  have b112 : ¬ (s ≤ 112) := by omega
  have b128 : ¬ (s ≤ 128) := by omega
  have b144 : ¬ (s ≤ 144) := by omega
  have b160 : ¬ (s ≤ 160) := by omega
  have b196 : ¬ (s ≤ 196) := by omega
  have b212 : ¬ (s ≤ 212) := by omega
  have b228 : ¬ (s ≤ 228) := by omega
  have b256 : ¬ (s ≤ 256) := by omega
  have b512 : ¬ (s ≤ 512) := by omega
  simp only [if_neg b4, if_neg b8, if_neg b16, if_neg b32, if_neg b48, if_neg b64, if_neg b80, if_neg b96, if_neg b112, if_neg b128, if_neg b144, if_neg b160, if_neg b196, if_neg b212, if_neg b228, if_neg b256, if_neg b512, if_true]

theorem dealloc_ladder : ∀ c ∈ codeLadder, Dealloc (some (c : Int)) = .pool c := by
  decide


/-- Claim C2: for every pointer handed out by `Alloc`, `Dealloc` reads back the
stamped Size Header and routes the block to exactly the pool `Alloc` fetched it
from (the header always equals the chosen class, and the class chains agree on
every reachable header value); a header above the ladder maximum 512 — exactly
the oversized allocations — is routed to the backing allocator's free. -/
theorem alloc_dealloc_agree :
    (∀ (size : Int) (c h : Nat), Alloc true true size = .ok c h →
        h = c ∧ Dealloc (some (h : Int)) = .pool c) ∧
    (∀ (size : Int) (h r : Nat), Alloc true true size = .oversized h r →
        Dealloc (some (h : Int)) = .backingFree) := by
  constructor
  · intro size c h hA
    unfold Alloc at hA
    by_cases h0 : size ≤ 0
    · rw [if_pos h0] at hA; exact absurd hA (by simp)
    · rw [if_neg h0] at hA
      by_cases hs : align4 size.toNat ≤ 512
      · rw [allocChain_spec _ (by omega)] at hA
        rcases hfind : smallestClass codeLadder (align4 size.toNat) with _ | c0 <;>
          rw [hfind] at hA
        · exact absurd hA (by simp)
        · simp only [Option.elim] at hA
          injection hA with e1 e2
          subst e1; subst e2
          exact ⟨rfl, dealloc_ladder c0 (List.mem_of_find?_eq_some hfind)⟩
      · rw [allocChain_big _ (by omega)] at hA
        exact absurd hA (by simp)
  · intro size h r hA
    unfold Alloc at hA
    by_cases h0 : size ≤ 0
    · rw [if_pos h0] at hA; exact absurd hA (by simp)
    · rw [if_neg h0] at hA
      by_cases hs : align4 size.toNat ≤ 512
      · rw [allocChain_spec _ (by omega)] at hA
        rcases hfind : smallestClass codeLadder (align4 size.toNat) with _ | c0 <;>
          rw [hfind] at hA <;> simp only [Option.elim] at hA <;> exact absurd hA (by simp)
      · rw [allocChain_big _ (by omega)] at hA
        injection hA with e1 e2
        subst e1
        exact dealloc_big _ (by omega)


/-- Claim C8 (amended): for every requested size above the largest class 512
(within the positive `int` range), `Alloc` bypasses the pools, requests
`sizeof(int) + roundedSize` bytes from the backing allocator and stamps the
Size Header with the 4-byte-ROUNDED requested size (not the literal size:
`Alloc(1001)` stores 1004), and `Dealloc` on that header frees via the backing
allocator without touching any size-class pool. -/
theorem alloc_oversized_path (size : Int) (h1 : 512 < size) (h2 : size ≤ 2 ^ 31 - 4) :
    Alloc true true size = .oversized (align4 size.toNat) (4 + align4 size.toNat) ∧
    size ≤ (align4 size.toNat : Int) ∧
    Dealloc (some ((align4 size.toNat : Nat) : Int)) = .backingFree := by
  have hlt : size.toNat + 3 < 2 ^ 32 := by omega
  have hge : size.toNat ≤ align4 size.toNat := align4_ge _ hlt
  have hbig : 512 < align4 size.toNat := by omega
  refine ⟨?_, by omega, dealloc_big _ hbig⟩
  unfold Alloc
  rw [if_neg (by omega)]
  exact allocChain_big _ hbig


theorem init_pos (i g : Nat) (hi : 0 < i) (hg : 0 < g) :
    init (i : Int) (g : Int) (freshW []) = (true, steadyWorld i g) := by
  have h1 : ¬((i : Int) = 0 ∧ (g : Int) = 0) := by omega
  have h2 : ¬((i : Int) = 0) := by omega
  have h3 : ¬((g : Int) = 0) := by omega
  have h4 : ¬((i : Int) ≤ 0) := by omega
  simp only [init, freshW, allocate, backingAlloc, steadyWorld, if_neg h1, if_neg h2,
    if_neg h3, if_neg h4, Int.toNat_natCast, List.nil_append, List.range'_eq_nil,
    Nat.zero_add, if_true]

theorem fetchN_succ_front (n : Nat) (w : PoolW) :
    fetchN (n + 1) w =
      ((_fetch w).1 :: (fetchN n (_fetch w).2).1, (fetchN n (_fetch w).2).2) := rfl

theorem fetchN_add (a b : Nat) (w : PoolW) :
    fetchN (a + b) w =
      ((fetchN a w).1 ++ (fetchN b (fetchN a w).2).1, (fetchN b (fetchN a w).2).2) := by
  induction a generalizing w with
  | zero => simp [fetchN]
  | succ n ih =>
    have h : n + 1 + b = (n + b) + 1 := by omega
    rw [h, fetchN_succ_front, fetchN_succ_front, ih]
    simp

theorem fetchN_steady (k : Nat) :
    ∀ (w : PoolW) (start len : Nat),
      w.pool.freeList = List.range' start len → k ≤ len →
      (fetchN k w).1 = (List.range' start k).map some ∧
      (fetchN k w).2.pool.freeList = List.range' (start + k) (len - k) ∧
      (fetchN k w).2.calls = w.calls ∧
      (fetchN k w).2.growths = w.growths ∧
      (fetchN k w).2.oracle = w.oracle ∧
      (fetchN k w).2.pool.nextId = w.pool.nextId ∧
      (fetchN k w).2.pool.regions = w.pool.regions ∧
      (fetchN k w).2.pool.growSize = w.pool.growSize ∧
      (fetchN k w).2.pool.initSize = w.pool.initSize := by
  induction k with
  | zero =>
    intro w start len hw hk
    refine ⟨rfl, ?_, rfl, rfl, rfl, rfl, rfl, rfl, rfl⟩
    simpa [fetchN] using hw
  | succ n ih =>
    intro w start len hw hk
    obtain ⟨len0, rfl⟩ : ∃ l0, len = l0 + 1 := ⟨len - 1, by omega⟩
    rw [List.range'_succ] at hw
    rw [fetchN_succ_front, fetch_cons w start (List.range' (start + 1) len0) hw]
    have ih0 := ih { w with pool := { w.pool with
        freeList := List.range' (start + 1) len0,
        magic := setMagic w.pool.magic start m_reference } } (start + 1) len0 rfl (by omega)
    obtain ⟨e1, e2, e3, e4, e5, e6, e7, e8, e9⟩ := ih0
    refine ⟨?_, ?_, ?_, ?_, ?_, ?_, ?_, ?_, ?_⟩
    · rw [List.range'_succ, List.map_cons]
      exact congrArg (some start :: ·) e1
    · rw [e2]
      have hs : start + 1 + n = start + (n + 1) := by omega
      have hl : len0 - n = len0 + 1 - (n + 1) := by omega
      rw [hs, hl]
    · exact e3
    · exact e4
    · exact e5
    · exact e6
    · exact e7
    · exact e8
    · exact e9


theorem fetch_grow (w : PoolW) (g0 : Nat)
    (hfl : w.pool.freeList = []) (ho : w.oracle = [])
    (hg : w.pool.growSize = ((g0 + 1 : Nat) : Int)) :
    _fetch w = (some w.pool.nextId,
      { pool := { nextId := w.pool.nextId + (g0 + 1),
                  freeList := List.range' (w.pool.nextId + 1) g0,
                  regions := w.pool.regions ++ [(w.pool.nextId, g0 + 1)],
                  magic := setMagic w.pool.magic w.pool.nextId m_reference,
                  initSize := w.pool.initSize,
                  growSize := w.pool.growSize },
        oracle := [], calls := w.calls + 1 + 1, growths := w.growths + 1 }) := by
  have hpos : ¬ (((g0 + 1 : Nat) : Int) ≤ 0) := by omega
  simp only [_fetch, allocate, backingAlloc, hfl, ho, hg, if_neg hpos,
    List.isEmpty_nil, if_true, Int.toNat_natCast, List.nil_append,
    List.range'_succ]




/-- Claim C9: after a successful `init(i, g)` the first `i` fetches all
succeed and trigger no growth allocation (backing-call count stays at the two
calls of `init`); the `(i+1)`-st fetch — the first to find the free list
exhausted — triggers exactly one growth that registers exactly one new region
of `g` blocks, leaving `i + g` blocks owned and `g - 1` of the new blocks
still free.  Instantiated at `i = 32, g = 4, 33` fetches this is the spec's
concrete scenario with 36 blocks owned afterwards. -/
theorem pool_growth_schedule (i g k : Nat) (hi : 0 < i) (hg : 0 < g) (hk : k ≤ i) :
    ((fetchN k (afterInit i g)).1.all Option.isSome = true ∧
     (fetchN k (afterInit i g)).2.growths = 0 ∧
     (fetchN k (afterInit i g)).2.calls = 2) ∧
    ((fetchN (i + 1) (afterInit i g)).1.all Option.isSome = true ∧
     (fetchN (i + 1) (afterInit i g)).2.growths = 1 ∧
     (fetchN (i + 1) (afterInit i g)).2.pool.regions = [(0, i), (i, g)] ∧
     totalOwned (fetchN (i + 1) (afterInit i g)).2 = i + g ∧
     (fetchN (i + 1) (afterInit i g)).2.pool.freeList.length = g - 1) := by
  have hInit : afterInit (i : Int) (g : Int) = steadyWorld i g := by
    unfold afterInit
    rw [init_pos i g hi hg]
  rw [hInit]
  obtain ⟨a1, a2, a3, a4, a5, a6, a7, a8, a9⟩ :=
    fetchN_steady k (steadyWorld i g) 0 i rfl hk
  obtain ⟨b1, b2, b3, b4, b5, b6, b7, b8, b9⟩ :=
    fetchN_steady i (steadyWorld i g) 0 i rfl le_rfl
  refine ⟨⟨?_, ?_, ?_⟩, ?_⟩
  · rw [a1]
    simp [List.all_eq_true]
  · rw [a4]
    rfl
  · rw [a3]
    rfl
  have hfl1 : (fetchN i (steadyWorld i g)).2.pool.freeList = [] := by
    rw [b2]
    simp
  have hgs : (fetchN i (steadyWorld i g)).2.pool.growSize = ((g - 1 + 1 : Nat) : Int) := by
    rw [b8]
    show ((g : Nat) : Int) = _
    congr 1
    omega
  have hgrow := fetch_grow _ (g - 1) hfl1 b5 hgs
  have hsplit := fetchN_add i 1 (steadyWorld i g)
  have hone : ∀ w : PoolW, fetchN 1 w = ([(_fetch w).1], (_fetch w).2) := fun w => rfl
  rw [hsplit, hone, hgrow]
  have hgg : g - 1 + 1 = g := by omega
  refine ⟨?_, ?_, ?_, ?_, ?_⟩
  · rw [b1]
    simp [List.all_eq_true]
  · rw [b4]
    rfl
  · rw [b7, b6, hgg]
    rfl
  · unfold totalOwned
    rw [b7, b6, hgg]
    simp [steadyWorld]
  · simp


/-- Claim C4: releasing a fetched block twice inserts it into the free list
exactly once — the first release appends the block once, and the second
release (the magic word now reads `m_unreference`) leaves the whole pool state
unchanged, so no later pair of fetches can alias it to two live callers. -/
theorem release_twice_inserts_once (cf : Bool) (w : PoolW) (b : Nat)
    (h1 : getMagic w.pool.magic b = m_reference)
    (h2 : owned w.pool.regions b = true) :
    (release_obj cf (some b) w).pool.freeList = w.pool.freeList ++ [b] ∧
    release_obj cf (some b) (release_obj cf (some b) w) = release_obj cf (some b) w := by
  rw [release_obj_succ cf w b h1 h2]
  refine ⟨rfl, ?_⟩
  simp only [release_obj, getMagic_setMagic]
  rw [if_pos unref_ne_ref]

/-- Claim C7 (amended): a release followed by a fetch never calls the backing
allocator in between and the fetch succeeds; the fetch returns the SAME
address only when the free list was empty at the release — in general the
free list is FIFO (`list_add_tail` on release, `list_first_entry` on fetch),
so with other blocks free the re-fetch returns a different block. -/
theorem refetch_after_release (cf : Bool) (w : PoolW) (b : Nat)
    (h1 : getMagic w.pool.magic b = m_reference)
    (h2 : owned w.pool.regions b = true) :
    (_fetch (release_obj cf (some b) w)).2.calls = w.calls ∧
    (_fetch (release_obj cf (some b) w)).1.isSome = true ∧
    (w.pool.freeList = [] → (_fetch (release_obj cf (some b) w)).1 = some b) := by
  rw [release_obj_succ cf w b h1 h2]
  rcases hfl : w.pool.freeList with _ | ⟨x, fl⟩
  · rw [fetch_cons _ b [] (by simp)]
    exact ⟨rfl, rfl, fun _ => rfl⟩
  · rw [fetch_cons _ x (fl ++ [b]) (by simp)]
    refine ⟨rfl, rfl, ?_⟩
    intro h3
    exact absurd h3 (by simp)



theorem init_pos_normalized (i g : Int) (hi : 0 < i) :
    (init i g (freshW [])).1 = true ∧
    (init i g (freshW [])).2.pool.regions = [(0, i.toNat)] ∧
    (init i g (freshW [])).2.pool.initSize = i ∧
    (init i g (freshW [])).2.pool.growSize = (if g = 0 then i else g) := by
  have h1 : ¬(i = 0 ∧ g = 0) := by omega
  have h2 : ¬ i = 0 := by omega
  have h4 : ¬ i ≤ 0 := by omega
  by_cases h3 : g = 0
  · simp only [init, freshW, allocate, backingAlloc, if_neg h1, if_neg h2, if_pos h3,
      if_neg h4, if_true, List.nil_append]
    exact ⟨trivial, trivial, trivial, trivial⟩
  · simp only [init, freshW, allocate, backingAlloc, if_neg h1, if_neg h2, if_neg h3,
      if_neg h4, if_true, List.nil_append]
    exact ⟨trivial, trivial, trivial, trivial⟩


theorem init_fail_nonpos (i g : Int) (hi : i ≤ 0) (hg : g ≤ 0) :
    (init i g (freshW [])).1 = false ∧
    (init i g (freshW [])).2.pool.regions = [] ∧
    (init i g (freshW [])).2.pool.freeList = [] ∧
    (init i g (freshW [])).2.calls = 0 := by
  simp only [init, freshW, allocate, backingAlloc]
  split_ifs <;> first | exact ⟨rfl, rfl, rfl, rfl⟩ | (exfalso; omega)

theorem init_zero_pos (g : Int) (hg : 0 < g) :
    (init 0 g (freshW [])).1 = true ∧
    (init 0 g (freshW [])).2.pool.regions = [(0, g.toNat)] ∧
    (init 0 g (freshW [])).2.pool.initSize = g := by
  have h3 : ¬ g = 0 := by omega
  have h4 : ¬ g ≤ 0 := by omega
  simp only [init, freshW, allocate, backingAlloc, eq_self_iff_true, true_and,
    if_neg h3, if_neg h4, if_true, List.nil_append]


/-- Claim C1 (amended): for every requested size in `[1, 512]`, `Alloc` rounds
the size up to the next multiple of 4 and serves it from the pool of the
smallest class of the ladder the code actually walks — `(4, 8, 16, 32, 48,
64, 80, 96, 112, 128, 144, 160, 196, 212, 228, 256, 512)`, with NO 24 rung —
that is ≥ the rounded size, stamping the Size Header with that class.  In
particular sizes rounding to 20 or 24 are served by the 32-byte pool, not the
(existing but never selected) 24-byte pool. -/
theorem alloc_selects_code_ladder :
    ∀ size : Nat, size < 513 → 1 ≤ size →
      Alloc true true (size : Int) =
        (smallestClass codeLadder (align4 size)).elim .null (fun c => .ok c c) := by
  decide

theorem alloc_selects_code_ladder_witness :
    (20 : Nat) < 513 ∧ 1 ≤ (20 : Nat) ∧
    Alloc true true ((20 : Nat) : Int) =
      (smallestClass codeLadder (align4 20)).elim .null (fun c => .ok c c) :=
  ⟨by decide, by decide, alloc_selects_code_ladder 20 (by decide) (by decide)⟩

/-- Claim C1 counterexample: by the spec's own ladder (which lists 24) and
selection rule, a request of 20 bytes should come from the 24-byte pool with
header 24; the code serves it from the 32-byte pool with header 32. -/
theorem alloc_class20_cex :
    smallestClass specLadder (align4 20) = some 24 ∧
    Alloc true true 20 = .ok 32 32 ∧
    Alloc true true 20 ≠ .ok 24 24 := by
  decide

theorem alloc_dealloc_agree_witness :
    (Alloc true true 10 = .ok 16 16 ∧
      (16 = 16 ∧ Dealloc (some ((16 : Nat) : Int)) = .pool 16)) ∧
    (Alloc true true 1000 = .oversized 1000 1004 ∧
      Dealloc (some ((1000 : Nat) : Int)) = .backingFree) :=
  ⟨⟨by decide, alloc_dealloc_agree.1 10 16 16 (by decide)⟩,
   ⟨by decide, alloc_dealloc_agree.2 1000 1000 1004 (by decide)⟩⟩

/-- Claim C3 (code bug): when the second backing call of `allocate` (the
`resource_info` record) fails, `init` returns `false` / `_fetch` returns null
as the claim says, but the pool is NOT left in its last valid state: the new
blocks are already on the free list while no region is registered (and the
block array leaks).  Evaluated here at `init(1,1)` with backing outcomes
`[ok, fail]` (free list gains block 0, no region) and at a growth fetch with
outcomes `[ok, ok, ok, fail]` (fetch returns null, free list gains block 1
that no registered region contains). -/
theorem allocate_partial_state_bug :
    (init 1 1 (freshW [true, false])).1 = false ∧
    (init 1 1 (freshW [true, false])).2.pool.freeList = [0] ∧
    (init 1 1 (freshW [true, false])).2.pool.regions = [] ∧
    (init 1 1 (freshW [true, false])).2.calls = 2 ∧
    (_fetch (fetchN 1 (init 1 1 (freshW [true, true, true, false])).2).2).1 = none ∧
    (_fetch (fetchN 1 (init 1 1 (freshW [true, true, true, false])).2).2).2.pool.freeList = [1] ∧
    (_fetch (fetchN 1 (init 1 1 (freshW [true, true, true, false])).2).2).2.pool.regions = [(0, 1)] := by
  decide

theorem release_twice_witness :
    getMagic oneBlockW.pool.magic 0 = m_reference ∧
    owned oneBlockW.pool.regions 0 = true ∧
    ((release_obj false (some 0) oneBlockW).pool.freeList = oneBlockW.pool.freeList ++ [0] ∧
     release_obj false (some 0) (release_obj false (some 0) oneBlockW) =
       release_obj false (some 0) oneBlockW) :=
  ⟨by decide, by decide, release_twice_inserts_once false oneBlockW 0 (by decide) (by decide)⟩

/-- Claim C5 (code bug): when the underlying allocation fails, `Alloc` does
NOT return null — the `createObj` macro stores `obj->size = Size` through the
null `fetch_obj()` result, and the oversized path stores `*(int*)p = size`
through the null `ObjMalloc` result. -/
theorem alloc_null_write_bug :
    Alloc false true 10 = .nullDeref ∧ Alloc true false 1000 = .nullDeref := by
  decide

/-- Claim C6 (code bug): `fetch_obj` runs the placement-`new` constructor on
the fetched block even when the pool was instantiated with `construct =
false` — the flag only guards the destructor in `release_obj`, contradicting
the code's own comment ("construct is whether construct when get object") and
the spec's raw-storage contract. -/
theorem fetch_constructs_despite_flag :
    (fetch_obj false (afterInit 1 1)).1 = some 0 ∧
    (fetch_obj false (afterInit 1 1)).2.1 = true := by
  decide

/-- Claim C7 counterexample: with two free blocks, fetch block 0, release it
(it goes to the free-list tail), fetch again: the pool returns block 1, not
the just-released block 0 — though indeed without any backing-allocator call
(the call count stays at 2, the two calls made by `init`). -/
theorem refetch_not_same_address_cex :
    (_fetch (afterInit 2 2)).1 = some 0 ∧
    (_fetch (release_obj false (some 0) (_fetch (afterInit 2 2)).2)).1 = some 1 ∧
    (some 1 : Option Nat) ≠ some 0 ∧
    (_fetch (release_obj false (some 0) (_fetch (afterInit 2 2)).2)).2.calls = 2 := by
  decide

theorem refetch_after_release_witness :
    getMagic oneBlockW.pool.magic 0 = m_reference ∧
    owned oneBlockW.pool.regions 0 = true ∧
    oneBlockW.pool.freeList = [] ∧
    (_fetch (release_obj false (some 0) oneBlockW)).2.calls = oneBlockW.calls ∧
    (_fetch (release_obj false (some 0) oneBlockW)).1.isSome = true ∧
    (_fetch (release_obj false (some 0) oneBlockW)).1 = some 0 :=
  ⟨by decide, by decide, by decide,
   (refetch_after_release false oneBlockW 0 (by decide) (by decide)).1,
   (refetch_after_release false oneBlockW 0 (by decide) (by decide)).2.1,
   (refetch_after_release false oneBlockW 0 (by decide) (by decide)).2.2 (by decide)⟩

/-- Claim C8 counterexample: `Alloc(1001)` stamps the Size Header with the
rounded size 1004 (requesting 4 + 1004 backing bytes), not with the literal
requested size 1001 that the claim states. -/
theorem oversized_header_rounded_cex :
    Alloc true true 1001 = .oversized 1004 1008 ∧ (1004 : Nat) ≠ 1001 := by
  decide

theorem alloc_oversized_path_witness :
    (512 : Int) < 1001 ∧ (1001 : Int) ≤ 2 ^ 31 - 4 ∧
    (Alloc true true 1001 =
        .oversized (align4 (1001 : Int).toNat) (4 + align4 (1001 : Int).toNat) ∧
      (1001 : Int) ≤ (align4 (1001 : Int).toNat : Int) ∧
      Dealloc (some ((align4 (1001 : Int).toNat : Nat) : Int)) = .backingFree) :=
  ⟨by decide, by decide, alloc_oversized_path 1001 (by decide) (by decide)⟩

/-- Claim C10 counterexample: `init(-1, 5)` has a positive count, yet returns
`false`: only an exact zero is normalized to the other count, so the negative
`initialCount` reaches `allocate`, which rejects it. -/
theorem init_negative_count_cex :
    (init (-1) 5 (freshW [])).1 = false ∧ (0 : Int) < 5 := by
  decide


theorem pool_growth_schedule_witness :
    ((0 : Nat) < 32 ∧ (0 : Nat) < 4 ∧ (32 : Nat) ≤ 32) ∧
    (((fetchN 32 (afterInit ((32 : Nat) : Int) ((4 : Nat) : Int))).1.all Option.isSome = true ∧
      (fetchN 32 (afterInit ((32 : Nat) : Int) ((4 : Nat) : Int))).2.growths = 0 ∧
      (fetchN 32 (afterInit ((32 : Nat) : Int) ((4 : Nat) : Int))).2.calls = 2) ∧
     ((fetchN (32 + 1) (afterInit ((32 : Nat) : Int) ((4 : Nat) : Int))).1.all Option.isSome = true ∧
      (fetchN (32 + 1) (afterInit ((32 : Nat) : Int) ((4 : Nat) : Int))).2.growths = 1 ∧
      (fetchN (32 + 1) (afterInit ((32 : Nat) : Int) ((4 : Nat) : Int))).2.pool.regions
        = [(0, 32), (32, 4)] ∧
      totalOwned (fetchN (32 + 1) (afterInit ((32 : Nat) : Int) ((4 : Nat) : Int))).2 = 32 + 4 ∧
      (fetchN (32 + 1) (afterInit ((32 : Nat) : Int) ((4 : Nat) : Int))).2.pool.freeList.length
        = 4 - 1)) :=
  ⟨⟨by decide, by decide, by decide⟩,
   pool_growth_schedule 32 4 32 (by decide) (by decide) (by decide)⟩

/-- Claim C10 (amended): `init` returns `false` with no region allocated, an
empty free list and no backing call whenever both counts are ≤ 0; an exactly
zero count is normalized to equal the other; `init` succeeds (the backing
allocator succeeding) with a first region of `initialCount` blocks whenever
`initialCount > 0` (any `growthCount`), and with a region of `growthCount`
blocks when `initialCount = 0 < growthCount`.  A NEGATIVE `initialCount` with
a positive `growthCount` is not normalized and fails. -/
theorem init_behavior :
    (∀ i g : Int, i ≤ 0 → g ≤ 0 →
        (init i g (freshW [])).1 = false ∧
        (init i g (freshW [])).2.pool.regions = [] ∧
        (init i g (freshW [])).2.pool.freeList = [] ∧
        (init i g (freshW [])).2.calls = 0) ∧
    (∀ i g : Int, 0 < i →
        (init i g (freshW [])).1 = true ∧
        (init i g (freshW [])).2.pool.regions = [(0, i.toNat)] ∧
        (init i g (freshW [])).2.pool.initSize = i ∧
        (init i g (freshW [])).2.pool.growSize = (if g = 0 then i else g)) ∧
    (∀ g : Int, 0 < g →
        (init 0 g (freshW [])).1 = true ∧
        (init 0 g (freshW [])).2.pool.regions = [(0, g.toNat)] ∧
        (init 0 g (freshW [])).2.pool.initSize = g) :=
  ⟨fun i g hi hg => init_fail_nonpos i g hi hg,
   fun i g hi => init_pos_normalized i g hi,
   fun g hg => init_zero_pos g hg⟩

theorem init_behavior_witness :
    (((-2 : Int) ≤ 0 ∧ (-3 : Int) ≤ 0) ∧ (init (-2) (-3) (freshW [])).1 = false) ∧
    ((0 : Int) < 5 ∧ (init 5 (-7) (freshW [])).1 = true ∧
      (init 5 (-7) (freshW [])).2.pool.regions = [(0, (5 : Int).toNat)]) ∧
    ((0 : Int) < 6 ∧ (init 0 6 (freshW [])).1 = true) :=
  ⟨⟨⟨by decide, by decide⟩, (init_behavior.1 (-2) (-3) (by decide) (by decide)).1⟩,
   ⟨by decide, (init_behavior.2.1 5 (-7) (by decide)).1,
    (init_behavior.2.1 5 (-7) (by decide)).2.1⟩,
   ⟨by decide, (init_behavior.2.2 6 (by decide)).1⟩⟩


end SObjPoolSpace
